import Mathlib

/-!
Verification of the echo node in `src/src/bin/echo.rs`.

The development shallowly embeds the program:

* `Payload`, `Message` mirror the serde data types (`u32` fields become
  `Nat`, with range checks made explicit where the code performs them).
* `appLoop` / `runApp` mirror the `app` function's handshake block and
  request loop.  A `RunResult` records the emitted reply envelopes, whether
  the run terminated successfully (`ok = true`) or via `bail!`
  (`ok = false`), and the final mutable `State`.
* `encodeMessage` / `decodeMessage` mirror the derived serde
  `Serialize` / `Deserialize` implementations at the JSON-tree level.
* `read_line` / `recv_message` mirror the framing logic, with the JSON
  text grammar modelled from the specification's wire format.
-/

namespace EchoNode

/-- `2^32`, the modulus of the `u32` type used by the program. -/
def u32size : Nat := 2 ^ 32

/-- The `Payload` enum of `src/src/bin/echo.rs` (serde-tagged union with
exactly four variants).  `u32` fields are embedded as `Nat`. -/
inductive Payload where
  | init (msg_id : Nat) (node_id : String) (node_ids : List String)
  | initOk (in_reply_to : Nat)
  | echo (msg_id : Nat) (echo : String)
  | echoOk (msg_id : Nat) (in_reply_to : Nat) (echo : String)
deriving DecidableEq

/-- The `Message` struct: envelope with `src`, `dst` (serialized as
`dest`) and `payload` (serialized as `body`). -/
structure Message where
  src : String
  dst : String
  payload : Payload
deriving DecidableEq

/-- The `State` struct: node identity and outbound counter.
`State::default()` is `⟨"", 0⟩`. -/
structure State where
  node_id : String
  msg_id : Nat
deriving DecidableEq

/-- Result of a run of (a suffix of) `app`: the reply envelopes written to
stdout in order, whether the run finished without `bail!`, and the final
`State`. -/
structure RunResult where
  outputs : List Message
  ok : Bool
  state : State
deriving DecidableEq

/-- The post-handshake `while let` loop of `app` (lines 116–145): each
`Echo` request gets one `EchoOk` reply whose `msg_id` is the current
counter, after which the counter is incremented (`u32` arithmetic, hence
`% u32size`); any other payload hits `bail!` and produces no further
output. -/
def appLoop (st : State) (msgs : List Message) : RunResult :=
  match msgs with
  | [] => ⟨[], true, st⟩
  | m :: rest =>
    match m.payload with
    | .echo reqId e =>
      let id := st.msg_id
      let st' : State := ⟨st.node_id, (st.msg_id + 1) % u32size⟩
      let r := appLoop st' rest
      ⟨⟨st.node_id, m.src, .echoOk id reqId e⟩ :: r.outputs, r.ok, r.state⟩
    | _ => ⟨[], false, st⟩

/-- The whole `app` function (lines 76–148) on an already-decoded input
stream: no first message is `bail!("no initial message")`; a first `Init`
records the identity, replies `InitOk`, and enters `appLoop`; any other
first payload is `bail!` with no output. -/
def runApp (input : List Message) : RunResult :=
  match input with
  | [] => ⟨[], false, ⟨"", 0⟩⟩
  | m :: rest =>
    match m.payload with
    | .init reqId nodeId _ =>
      let st : State := ⟨nodeId, 0⟩
      let r := appLoop st rest
      ⟨⟨nodeId, m.src, .initOk reqId⟩ :: r.outputs, r.ok, r.state⟩
    | _ => ⟨[], false, ⟨"", 0⟩⟩

/-- The init envelope of the end-to-end scenario. -/
def cInit : Message := ⟨"c1", "n1", .init 1 "n1" ["n1"]⟩

/-- The echo envelope of the end-to-end scenario. -/
def cEcho : Message := ⟨"c1", "n1", .echo 2 "hello"⟩

/-- C1: on the two-message input `init` (msg_id 1, node_id "n1") then
`echo` (msg_id 2, echo "hello") followed by end-of-input, the node emits
exactly the `init_ok` reply with `in_reply_to = 1` and then the `echo_ok`
reply with `msg_id = 0`, `in_reply_to = 2`, `echo = "hello"`, and
terminates successfully. -/
theorem scenario_end_to_end :
    runApp [cInit, cEcho] =
      ⟨[⟨"n1", "c1", .initOk 1⟩, ⟨"n1", "c1", .echoOk 0 2 "hello"⟩],
        true, ⟨"n1", 1⟩⟩ := by
  decide

/-- Whether a payload is the `Echo` variant (the only one the request loop
accepts). -/
def Payload.isEchoB : Payload → Bool
  | .echo _ _ => true
  | _ => false

/-- Whether a payload is the `Init` variant (the only one the handshake
block accepts). -/
def Payload.isInitB : Payload → Bool
  | .init _ _ _ => true
  | _ => false

theorem appLoop_state_node_id (msgs : List Message) :
    ∀ st : State, (appLoop st msgs).state.node_id = st.node_id := by
  induction msgs with
  | nil => intro st; rfl
  | cons m rest ih =>
    intro st
    cases hp : m.payload with
    | echo a b => simp [appLoop, hp, ih]
    | init a b c => simp [appLoop, hp]
    | initOk a => simp [appLoop, hp]
    | echoOk a b c => simp [appLoop, hp]

theorem appLoop_append (xs ys : List Message) :
    ∀ st : State, (appLoop st xs).ok = true →
      appLoop st (xs ++ ys) =
        ⟨(appLoop st xs).outputs ++ (appLoop (appLoop st xs).state ys).outputs,
          (appLoop (appLoop st xs).state ys).ok,
          (appLoop (appLoop st xs).state ys).state⟩ := by
  induction xs with
  | nil => intro st _; simp [appLoop]
  | cons m rest ih =>
    intro st h
    cases hp : m.payload with
    | echo a b =>
      have h' : (appLoop ⟨st.node_id, (st.msg_id + 1) % u32size⟩ rest).ok = true := by
        simpa [appLoop, hp] using h
      simp [appLoop, hp, ih _ h']
    | init a b c => simp [appLoop, hp] at h
    | initOk a => simp [appLoop, hp] at h
    | echoOk a b c => simp [appLoop, hp] at h

theorem appLoop_allEcho (msgs : List Message) :
    ∀ st : State, (msgs.all fun m => m.payload.isEchoB) = true →
      (appLoop st msgs).ok = true ∧
      (appLoop st msgs).outputs.length = msgs.length := by
  induction msgs with
  | nil => intro st _; exact ⟨rfl, rfl⟩
  | cons m rest ih =>
    intro st h
    simp only [List.all_cons, Bool.and_eq_true] at h
    cases hp : m.payload with
    | echo a b => simp [appLoop, hp, ih _ h.2]
    | init a b c => rw [hp] at h; simp [Payload.isEchoB] at h
    | initOk a => rw [hp] at h; simp [Payload.isEchoB] at h
    | echoOk a b c => rw [hp] at h; simp [Payload.isEchoB] at h

theorem appLoop_not_echo (st : State) (m : Message) (rest : List Message)
    (h : m.payload.isEchoB = false) :
    appLoop st (m :: rest) = ⟨[], false, st⟩ := by
  cases hp : m.payload with
  | echo a b => rw [hp] at h; simp [Payload.isEchoB] at h
  | init a b c => simp [appLoop, hp]
  | initOk a => simp [appLoop, hp]
  | echoOk a b c => simp [appLoop, hp]

/-- C3: an `echo` request received in the ready state with payload `E`
and request id `M` is answered first, by an `echo_ok` reply whose
`echo` field is exactly `E`, whose `in_reply_to` is `M`, and whose own
`msg_id` is the current counter value. -/
theorem echo_reply_fields (st : State) (m : Message) (rest : List Message)
    (M : Nat) (E : String) (h : m.payload = .echo M E) :
    (appLoop st (m :: rest)).outputs.head? =
      some ⟨st.node_id, m.src, .echoOk st.msg_id M E⟩ := by
  simp [appLoop, h]

/-- C4: a payload that is illegal in the current state is fatal and gets
no reply: a non-`init` first payload terminates with no output at all,
and in the ready state a non-`echo` payload (a second `init` included)
stops the run with replies only for the preceding `echo` requests. -/
theorem invalid_payload_fatal :
    (∀ (m : Message) (rest : List Message), m.payload.isInitB = false →
        runApp (m :: rest) = ⟨[], false, ⟨"", 0⟩⟩) ∧
    (∀ (st : State) (good : List Message) (bad : Message) (rest : List Message),
        (good.all fun g => g.payload.isEchoB) = true →
        bad.payload.isEchoB = false →
        appLoop st (good ++ bad :: rest) =
          ⟨(appLoop st good).outputs, false, (appLoop st good).state⟩ ∧
        (appLoop st good).outputs.length = good.length) := by
  constructor
  · intro m rest h
    cases hp : m.payload with
    | init a b c => rw [hp] at h; simp [Payload.isInitB] at h
    | initOk a => simp [runApp, hp]
    | echo a b => simp [runApp, hp]
    | echoOk a b c => simp [runApp, hp]
  · intro st good bad rest hall hbad
    have hok := appLoop_allEcho good st hall
    refine ⟨?_, hok.2⟩
    rw [appLoop_append good (bad :: rest) st hok.1,
      appLoop_not_echo _ _ _ hbad]
    simp

theorem appLoop_outputs_src_dst (msgs : List Message) :
    ∀ (st : State) (i : Nat) (o : Message),
      (appLoop st msgs).outputs[i]? = some o →
      ∃ m, msgs[i]? = some m ∧ o.src = st.node_id ∧ o.dst = m.src := by
  induction msgs with
  | nil => intro st i o h; simp [appLoop] at h
  | cons m rest ih =>
    intro st i o h
    cases hp : m.payload with
    | echo a b =>
      simp only [appLoop, hp] at h
      cases i with
      | zero =>
        simp only [List.getElem?_cons_zero, Option.some.injEq] at h
        exact ⟨m, by simp, by rw [← h], by rw [← h]⟩
      | succ i =>
        simp only [List.getElem?_cons_succ] at h
        obtain ⟨m', hm', hsrc, hdst⟩ := ih _ i o h
        exact ⟨m', by simpa using hm', hsrc, hdst⟩
    | init a b c => simp [appLoop, hp] at h
    | initOk a => simp [appLoop, hp] at h
    | echoOk a b c => simp [appLoop, hp] at h

/-- C5: every emitted reply has `src` equal to the node's recorded
identity (the `node_id` of the run's final state) and `dst` equal to the
`src` of the request that triggered it (the input at the same index). -/
theorem reply_src_dst (input : List Message) (i : Nat) (o : Message)
    (h : (runApp input).outputs[i]? = some o) :
    ∃ m, input[i]? = some m ∧
      o.src = (runApp input).state.node_id ∧ o.dst = m.src := by
  cases input with
  | nil => simp [runApp] at h
  | cons m rest =>
    cases hp : m.payload with
    | init a b c =>
      simp only [runApp, hp] at h ⊢
      cases i with
      | zero =>
        simp only [List.getElem?_cons_zero, Option.some.injEq] at h
        refine ⟨m, by simp, ?_, by rw [← h]⟩
        rw [appLoop_state_node_id, ← h]
      | succ i =>
        simp only [List.getElem?_cons_succ] at h
        obtain ⟨m', hm', hsrc, hdst⟩ := appLoop_outputs_src_dst rest _ i o h
        refine ⟨m', by simpa using hm', ?_, hdst⟩
        rw [appLoop_state_node_id]
        simpa using hsrc
    | initOk a => simp [runApp, hp] at h
    | echo a b => simp [runApp, hp] at h
    | echoOk a b c => simp [runApp, hp] at h

/-- The `msg_id` fields of the `echo_ok` replies among the outputs, in
emission order. -/
def echoMsgIds (outs : List Message) : List Nat :=
  outs.filterMap fun m =>
    match m.payload with
    | .echoOk id _ _ => some id
    | _ => none

theorem echoMsgIds_cons_echoOk (id irt : Nat) (e s d : String)
    (outs : List Message) :
    echoMsgIds (⟨s, d, .echoOk id irt e⟩ :: outs) = id :: echoMsgIds outs := rfl

theorem echoMsgIds_cons_initOk (irt : Nat) (s d : String)
    (outs : List Message) :
    echoMsgIds (⟨s, d, .initOk irt⟩ :: outs) = echoMsgIds outs := rfl

theorem appLoop_final_msg_id (msgs : List Message) :
    ∀ st : State, st.msg_id < u32size →
      (msgs.all fun m => m.payload.isEchoB) = true →
      (appLoop st msgs).state.msg_id = (st.msg_id + msgs.length) % u32size := by
  induction msgs with
  | nil => intro st hlt _; simpa [appLoop] using (Nat.mod_eq_of_lt hlt).symm
  | cons m rest ih =>
    intro st hlt hall
    simp only [List.all_cons, Bool.and_eq_true] at hall
    cases hp : m.payload with
    | echo a b =>
      have hlt' : (st.msg_id + 1) % u32size < u32size :=
        Nat.mod_lt _ (by decide)
      simp only [appLoop, hp]
      rw [ih ⟨st.node_id, (st.msg_id + 1) % u32size⟩ hlt' hall.2]
      simp only [List.length_cons]
      rw [Nat.mod_add_mod, Nat.add_assoc, Nat.add_comm 1 rest.length]
    | init a b c => rw [hp] at hall; simp [Payload.isEchoB] at hall
    | initOk a => rw [hp] at hall; simp [Payload.isEchoB] at hall
    | echoOk a b c => rw [hp] at hall; simp [Payload.isEchoB] at hall

theorem appLoop_echoMsgIds (msgs : List Message) :
    ∀ st : State, st.msg_id < u32size →
      (msgs.all fun m => m.payload.isEchoB) = true →
      echoMsgIds (appLoop st msgs).outputs =
        (List.range msgs.length).map fun k => (st.msg_id + k) % u32size := by
  induction msgs with
  | nil => intro st _ _; rfl
  | cons m rest ih =>
    intro st hlt hall
    simp only [List.all_cons, Bool.and_eq_true] at hall
    cases hp : m.payload with
    | echo a b =>
      have hlt' : (st.msg_id + 1) % u32size < u32size :=
        Nat.mod_lt _ (by decide)
      have ih1 := ih ⟨st.node_id, (st.msg_id + 1) % u32size⟩ hlt' hall.2
      simp only [appLoop, hp]
      rw [echoMsgIds_cons_echoOk, ih1]
      simp only [List.length_cons, List.range_succ_eq_map, List.map_cons,
        List.map_map]
      congr 1
      · exact (Nat.mod_eq_of_lt hlt).symm
      · refine List.map_congr_left fun k _ => ?_
        simp only [Function.comp_apply, Nat.succ_eq_add_one]
        rw [Nat.mod_add_mod, Nat.add_assoc, Nat.add_comm 1 k]
    | init a b c => rw [hp] at hall; simp [Payload.isEchoB] at hall
    | initOk a => rw [hp] at hall; simp [Payload.isEchoB] at hall
    | echoOk a b c => rw [hp] at hall; simp [Payload.isEchoB] at hall

/-- C2 (amended): after a successful handshake, the `msg_id` fields of
the replies to `N` consecutive echo requests are exactly `0, ..., N-1`
in order, provided `N ≤ 2^32` (the counter is `u32` arithmetic and wraps
past that); the counter starts at `0` and has been incremented once per
reply at the end. -/
theorem echo_msg_ids_sequential (initM : Message) (a : Nat) (b : String)
    (c : List String) (msgs : List Message)
    (hinit : initM.payload = .init a b c)
    (hall : (msgs.all fun m => m.payload.isEchoB) = true)
    (hlen : msgs.length ≤ u32size) :
    echoMsgIds (runApp (initM :: msgs)).outputs = List.range msgs.length ∧
    (runApp (initM :: msgs)).state.msg_id = msgs.length % u32size := by
  have h0 : (⟨b, 0⟩ : State).msg_id < u32size := by
    show 0 < u32size
    decide
  constructor
  · simp only [runApp, hinit]
    rw [echoMsgIds_cons_initOk, appLoop_echoMsgIds msgs ⟨b, 0⟩ h0 hall]
    conv_rhs => rw [← List.map_id (List.range msgs.length)]
    refine List.map_congr_left fun k hk => ?_
    have hklt : k < msgs.length := List.mem_range.mp hk
    simp [Nat.mod_eq_of_lt (lt_of_lt_of_le hklt hlen)]
  · simp only [runApp, hinit]
    rw [appLoop_final_msg_id msgs ⟨b, 0⟩ h0 hall]
    simp

/-- C2 fails as literally stated at `N = 2^32 + 1`: with that many echo
requests after the handshake the reply ids are not `0, ..., 2^32`
(the `u32` counter has wrapped back to `0`). -/
theorem echo_msg_ids_wrap_cex :
    echoMsgIds (runApp (cInit :: List.replicate (u32size + 1) cEcho)).outputs ≠
      List.range (u32size + 1) := by
  have hall : ((List.replicate (u32size + 1) cEcho).all
      fun m => m.payload.isEchoB) = true := by
    rw [List.all_eq_true]
    intro m hm
    rw [List.eq_of_mem_replicate hm]
    rfl
  have hids : echoMsgIds (runApp (cInit :: List.replicate (u32size + 1) cEcho)).outputs =
      (List.range (u32size + 1)).map fun k => (0 + k) % u32size := by
    simp only [runApp, cInit]
    rw [echoMsgIds_cons_initOk,
      appLoop_echoMsgIds (List.replicate (u32size + 1) cEcho) ⟨"n1", 0⟩
        (by decide) hall, List.length_replicate]
  intro h
  rw [hids] at h
  have h2 := congrArg (fun l => l[u32size]?) h
  simp only [List.getElem?_map] at h2
  rw [List.getElem?_range (Nat.lt_succ_self u32size)] at h2
  simp only [Option.map_some, Option.some.injEq, Nat.zero_add,
    Nat.mod_self] at h2
  exact absurd h2.symm (by decide)

/-- Equality of payloads up to the `node_ids` field (which the program
never reads). -/
def payloadObsEqB : Payload → Payload → Bool
  | .init a b _, .init a' b' _ => a == a' && b == b'
  | .initOk a, .initOk a' => a == a'
  | .echo a b, .echo a' b' => a == a' && b == b'
  | .echoOk a b c, .echoOk a' b' c' => a == a' && b == b' && c == c'
  | _, _ => false

/-- Equality of envelopes up to the `dest` field and the `node_ids`
field (neither of which the program reads). -/
def obsEqB (x y : Message) : Bool :=
  x.src == y.src && payloadObsEqB x.payload y.payload

theorem payloadObsEqB_spec (p q : Payload) (h : payloadObsEqB p q = true) :
    p = q ∨ ∃ mi ni ns ns', p = .init mi ni ns ∧ q = .init mi ni ns' := by
  cases p <;> cases q <;> simp_all [payloadObsEqB]

theorem appLoop_obsEq (xs ys : List Message)
    (h : List.Forall₂ (fun a b => obsEqB a b = true) xs ys) :
    ∀ st : State, appLoop st xs = appLoop st ys := by
  induction h with
  | nil => intro st; rfl
  | @cons x y xs' ys' hxy htail ih =>
    intro st
    simp only [obsEqB, Bool.and_eq_true, beq_iff_eq] at hxy
    obtain ⟨hsrc, hp⟩ := hxy
    rcases payloadObsEqB_spec _ _ hp with heq | ⟨mi, ni, ns, ns', hx1, hy1⟩
    · cases hq : y.payload with
      | echo a b => simp [appLoop, heq, hq, hsrc, ih]
      | init a b c => simp [appLoop, heq, hq]
      | initOk a => simp [appLoop, heq, hq]
      | echoOk a b c => simp [appLoop, heq, hq]
    · simp [appLoop, hx1, hy1]

/-- C9: the run (outputs, success flag and final state alike) depends
only on each inbound envelope's `src` and payload-without-`node_ids`:
two input sequences related pointwise by `obsEqB` produce identical
runs. -/
theorem behavior_ignores_dest_and_node_ids (xs ys : List Message)
    (h : List.Forall₂ (fun a b => obsEqB a b = true) xs ys) :
    runApp xs = runApp ys := by
  cases h with
  | nil => rfl
  | @cons x y xs' ys' hxy htail =>
    simp only [obsEqB, Bool.and_eq_true, beq_iff_eq] at hxy
    obtain ⟨hsrc, hp⟩ := hxy
    rcases payloadObsEqB_spec _ _ hp with heq | ⟨mi, ni, ns, ns', hx1, hy1⟩
    · cases hq : y.payload with
      | init a b c =>
        simp [runApp, heq, hq, hsrc, appLoop_obsEq _ _ htail]
      | initOk a => simp [runApp, heq, hq]
      | echo a b => simp [runApp, heq, hq]
      | echoOk a b c => simp [runApp, heq, hq]
    · simp [runApp, hx1, hy1, hsrc, appLoop_obsEq _ _ htail]

theorem echo_reply_fields_w :
    cEcho.payload = Payload.echo 2 "hello" ∧
    (appLoop ⟨"n1", 0⟩ [cEcho]).outputs.head? =
      some ⟨"n1", "c1", .echoOk 0 2 "hello"⟩ :=
  ⟨rfl, echo_reply_fields ⟨"n1", 0⟩ cEcho [] 2 "hello" rfl⟩

theorem invalid_payload_fatal_w :
    (cEcho.payload.isInitB = false ∧
      runApp [cEcho] = ⟨[], false, ⟨"", 0⟩⟩) ∧
    (([cEcho].all fun g => g.payload.isEchoB) = true ∧
      cInit.payload.isEchoB = false ∧
      appLoop ⟨"n1", 0⟩ ([cEcho] ++ [cInit]) =
        ⟨(appLoop ⟨"n1", 0⟩ [cEcho]).outputs, false,
          (appLoop ⟨"n1", 0⟩ [cEcho]).state⟩ ∧
      (appLoop ⟨"n1", 0⟩ [cEcho]).outputs.length = [cEcho].length) :=
  ⟨⟨by decide, invalid_payload_fatal.1 cEcho [] (by decide)⟩,
    ⟨by decide, by decide,
      invalid_payload_fatal.2 ⟨"n1", 0⟩ [cEcho] cInit [] (by decide) (by decide)⟩⟩

theorem reply_src_dst_w :
    ((runApp [cInit, cEcho]).outputs[1]? =
      some (⟨"n1", "c1", .echoOk 0 2 "hello"⟩ : Message)) ∧
    ∃ m, ([cInit, cEcho] : List Message)[1]? = some m ∧
      (⟨"n1", "c1", .echoOk 0 2 "hello"⟩ : Message).src =
        (runApp [cInit, cEcho]).state.node_id ∧
      (⟨"n1", "c1", .echoOk 0 2 "hello"⟩ : Message).dst = m.src :=
  ⟨by decide, reply_src_dst [cInit, cEcho] 1 _ (by decide)⟩

theorem echo_msg_ids_sequential_w :
    (cInit.payload = Payload.init 1 "n1" ["n1"] ∧
      ([cEcho, cEcho].all fun m => m.payload.isEchoB) = true ∧
      ([cEcho, cEcho] : List Message).length ≤ u32size) ∧
    (echoMsgIds (runApp (cInit :: [cEcho, cEcho])).outputs =
        List.range ([cEcho, cEcho] : List Message).length ∧
      (runApp (cInit :: [cEcho, cEcho])).state.msg_id =
        ([cEcho, cEcho] : List Message).length % u32size) :=
  ⟨⟨rfl, by decide, by decide⟩,
    echo_msg_ids_sequential cInit 1 "n1" ["n1"] [cEcho, cEcho] rfl
      (by decide) (by decide)⟩

/-- A variant of `cInit` that differs only in the `dest` field and the
`node_ids` list. -/
def cInitAlt : Message := ⟨"c1", "elsewhere", .init 1 "n1" ["n1", "n2"]⟩

/-- A variant of `cEcho` that differs only in the `dest` field. -/
def cEchoAlt : Message := ⟨"c1", "elsewhere", .echo 2 "hello"⟩

theorem behavior_ignores_dest_and_node_ids_w :
    List.Forall₂ (fun a b => obsEqB a b = true)
      [cInit, cEcho] [cInitAlt, cEchoAlt] ∧
    runApp [cInit, cEcho] = runApp [cInitAlt, cEchoAlt] := by
  have hf : List.Forall₂ (fun a b => obsEqB a b = true)
      [cInit, cEcho] [cInitAlt, cEchoAlt] :=
    List.Forall₂.cons (by decide)
      (List.Forall₂.cons (by decide) List.Forall₂.nil)
  exact ⟨hf, behavior_ignores_dest_and_node_ids _ _ hf⟩

/-- JSON values: the serde data model that `serde_json` maps wire text to
and from.  Numbers are embedded as integers (the protocol's wire format
carries only unsigned integers). -/
inductive Json where
  | null
  | bool (b : Bool)
  | num (n : Int)
  | str (s : String)
  | arr (elems : List Json)
  | obj (fields : List (String × Json))

/-- Serde's derived `Serialize` for `Payload` (internally tagged with
`tag = "type"`): the tag first, then the variant's fields in declaration
order. -/
def encodePayload : Payload → Json
  | .init mi ni ns =>
    .obj [("type", .str "init"), ("msg_id", .num (mi : Int)),
      ("node_id", .str ni), ("node_ids", .arr (ns.map .str))]
  | .initOk irt =>
    .obj [("type", .str "init_ok"), ("in_reply_to", .num (irt : Int))]
  | .echo mi e =>
    .obj [("type", .str "echo"), ("msg_id", .num (mi : Int)),
      ("echo", .str e)]
  | .echoOk mi irt e =>
    .obj [("type", .str "echo_ok"), ("msg_id", .num (mi : Int)),
      ("in_reply_to", .num (irt : Int)), ("echo", .str e)]

/-- Serde's derived `Serialize` for `Message` (`dst` serialized as
`dest`, `payload` as `body`). -/
def encodeMessage (m : Message) : Json :=
  .obj [("src", .str m.src), ("dest", .str m.dst),
    ("body", encodePayload m.payload)]

/-- A field resolved the way serde's derived visitor resolves it: present
exactly once among the object's entries.  A missing or duplicated known
field is a deserialization error; unknown fields are ignored. -/
def getUnique (fields : List (String × Json)) (key : String) : Option Json :=
  match fields.filter fun p => p.1 == key with
  | [p] => some p.2
  | _ => none

def reqField (fields : List (String × Json)) (key : String) :
    Except String Json :=
  match getUnique fields key with
  | some v => .ok v
  | none => .error ("missing or duplicate field " ++ key)

def asString : Json → Except String String
  | .str s => .ok s
  | _ => .error "invalid type: expected a string"

/-- Deserialization of a `u32`: a non-negative integer below `2^32`;
anything else is rejected. -/
def asU32 : Json → Except String Nat
  | .num (.ofNat m) =>
    if m < u32size then .ok m
    else .error "invalid value: integer out of range for u32"
  | .num (.negSucc _) => .error "invalid value: negative integer for u32"
  | _ => .error "invalid type: expected an unsigned integer"

def decodeStrings : List Json → Except String (List String)
  | [] => .ok []
  | j :: rest =>
    (asString j).bind fun s =>
    (decodeStrings rest).bind fun ss => .ok (s :: ss)

/-- Deserialization of `Vec<String>`. -/
def asStringList : Json → Except String (List String)
  | .arr xs => decodeStrings xs
  | _ => .error "invalid type: expected an array"

/-- Serde's derived `Deserialize` for the internally tagged `Payload`:
find the `type` tag, dispatch on it, read the variant's fields, and
reject unknown tags. -/
def decodePayload : Json → Except String Payload
  | .obj pf =>
    (reqField pf "type").bind fun tj =>
    (asString tj).bind fun tag =>
    if tag = "init" then
      (reqField pf "msg_id").bind fun aj => (asU32 aj).bind fun mi =>
      (reqField pf "node_id").bind fun bj => (asString bj).bind fun ni =>
      (reqField pf "node_ids").bind fun cj => (asStringList cj).bind fun ns =>
      .ok (.init mi ni ns)
    else if tag = "init_ok" then
      (reqField pf "in_reply_to").bind fun aj => (asU32 aj).bind fun irt =>
      .ok (.initOk irt)
    else if tag = "echo" then
      (reqField pf "msg_id").bind fun aj => (asU32 aj).bind fun mi =>
      (reqField pf "echo").bind fun bj => (asString bj).bind fun e =>
      .ok (.echo mi e)
    else if tag = "echo_ok" then
      (reqField pf "msg_id").bind fun aj => (asU32 aj).bind fun mi =>
      (reqField pf "in_reply_to").bind fun bj => (asU32 bj).bind fun irt =>
      (reqField pf "echo").bind fun cj => (asString cj).bind fun e =>
      .ok (.echoOk mi irt e)
    else .error ("unknown variant " ++ tag)
  | _ => .error "invalid type: expected a payload object"

/-- Serde's derived `Deserialize` for `Message`. -/
def decodeMessage : Json → Except String Message
  | .obj fields =>
    (reqField fields "src").bind fun aj => (asString aj).bind fun src =>
    (reqField fields "dest").bind fun bj => (asString bj).bind fun dst =>
    (reqField fields "body").bind fun cj =>
    (decodePayload cj).bind fun payload =>
    .ok ⟨src, dst, payload⟩
  | _ => .error "invalid type: expected an envelope object"

/-- All numeric fields fit in `u32` — every value the Rust `Payload`
type can hold satisfies this by construction. -/
def Payload.wfB : Payload → Bool
  | .init mi _ _ => decide (mi < u32size)
  | .initOk irt => decide (irt < u32size)
  | .echo mi _ => decide (mi < u32size)
  | .echoOk mi irt _ => decide (mi < u32size) && decide (irt < u32size)

/-- All numeric fields of the envelope's payload fit in `u32`. -/
def Message.wfB (m : Message) : Bool := m.payload.wfB

theorem decodeStrings_map_str (ss : List String) :
    decodeStrings (ss.map Json.str) = .ok ss := by
  induction ss with
  | nil => rfl
  | cons s rest ih => simp [decodeStrings, asString, Except.bind, ih]

theorem asU32_ofNat (mi : Nat) (h : mi < u32size) :
    asU32 (.num (mi : Int)) = .ok mi := by
  show asU32 (.num (Int.ofNat mi)) = .ok mi
  simp only [asU32]
  rw [if_pos h]

/-- C6: encoding any well-formed envelope and decoding the result gives
back an envelope equal in all fields (serde round-trip at the JSON-tree
level; the text rendering and parsing between trees and bytes live in
the external `serde_json` crate). -/
theorem encode_decode_roundtrip (m : Message) (h : m.wfB = true) :
    decodeMessage (encodeMessage m) = .ok m := by
  obtain ⟨src, dst, payload⟩ := m
  have hbody : decodePayload (encodePayload payload) = .ok payload := by
    simp only [Message.wfB] at h
    cases payload with
    | init mi ni ns =>
      simp only [Payload.wfB, decide_eq_true_eq] at h
      simp [encodePayload, decodePayload, reqField, getUnique, Except.bind,
        asString, asStringList, decodeStrings_map_str, asU32_ofNat _ h]
    | initOk irt =>
      simp only [Payload.wfB, decide_eq_true_eq] at h
      simp [encodePayload, decodePayload, reqField, getUnique, Except.bind,
        asString, asU32_ofNat _ h]
    | echo mi e =>
      simp only [Payload.wfB, decide_eq_true_eq] at h
      simp [encodePayload, decodePayload, reqField, getUnique, Except.bind,
        asString, asU32_ofNat _ h]
    | echoOk mi irt e =>
      simp only [Payload.wfB, Bool.and_eq_true, decide_eq_true_eq] at h
      simp [encodePayload, decodePayload, reqField, getUnique, Except.bind,
        asString, asU32_ofNat _ h.1, asU32_ofNat _ h.2]
  simp [encodeMessage, decodeMessage, reqField, getUnique, Except.bind,
    asString, hbody]

theorem encode_decode_roundtrip_w :
    cEcho.wfB = true ∧ decodeMessage (encodeMessage cEcho) = .ok cEcho :=
  ⟨by decide, encode_decode_roundtrip cEcho (by decide)⟩

/-- Keys of an object's field list are pairwise distinct. -/
def keyNodupB : List (String × Json) → Bool
  | [] => true
  | (k, _) :: rest => !(rest.any fun p => p.1 == k) && keyNodupB rest

/-- If the value is an object, its keys are pairwise distinct. -/
def bodyKeysNodupB : Json → Bool
  | .obj pf => keyNodupB pf
  | _ => true

/-- The two objects `decodeMessage` reads fields from (the envelope and
its `body`) have pairwise distinct keys. -/
def envKeysNodupB : Json → Bool
  | .obj fields =>
    keyNodupB fields &&
      (match List.lookup "body" fields with
       | some b => bodyKeysNodupB b
       | none => true)
  | _ => true

/-- Modelled from the spec: "`msg_id` (unsigned integer)" — the looked-up
field is present and is an unsigned integer representable in 32 bits. -/
def isU32B : Option Json → Bool
  | some (.num (.ofNat m)) => decide (m < u32size)
  | _ => false

/-- Modelled from the spec: the looked-up field is present and is a
string. -/
def isStrB : Option Json → Bool
  | some (.str _) => true
  | _ => false

/-- Modelled from the spec: the looked-up field is present and is an
ordered sequence of strings. -/
def isStrListB : Option Json → Bool
  | some (.arr xs) =>
    xs.all fun j =>
      match j with
      | .str _ => true
      | _ => false
  | _ => false

/-- Modelled from the spec: a payload object as §6 describes it — a
`type` tag naming one of the four variants and the variant's required
fields, each with the right shape (extra fields are not constrained). -/
def wellFormedPayloadB : Json → Bool
  | .obj pf =>
    (match List.lookup "type" pf with
     | some (.str t) =>
       if t = "init" then
         isU32B (List.lookup "msg_id" pf) &&
           isStrB (List.lookup "node_id" pf) &&
           isStrListB (List.lookup "node_ids" pf)
       else if t = "init_ok" then isU32B (List.lookup "in_reply_to" pf)
       else if t = "echo" then
         isU32B (List.lookup "msg_id" pf) && isStrB (List.lookup "echo" pf)
       else if t = "echo_ok" then
         isU32B (List.lookup "msg_id" pf) &&
           isU32B (List.lookup "in_reply_to" pf) &&
           isStrB (List.lookup "echo" pf)
       else false
     | _ => false)
  | _ => false

/-- Modelled from the spec: an envelope object with `src` and `dest`
strings and a well-formed payload under `body`. -/
def wellFormedEnvelopeB : Json → Bool
  | .obj fields =>
    isStrB (List.lookup "src" fields) &&
      isStrB (List.lookup "dest" fields) &&
      (match List.lookup "body" fields with
       | some b => wellFormedPayloadB b
       | none => false)
  | _ => false

/-- A required field, resolved from an already-computed lookup result. -/
def fieldOr (o : Option Json) (key : String) : Except String Json :=
  match o with
  | some v => .ok v
  | none => .error ("missing or duplicate field " ++ key)

theorem fieldOr_some (v : Json) (key : String) :
    fieldOr (some v) key = .ok v := rfl

theorem fieldOr_none (key : String) :
    fieldOr none key = .error ("missing or duplicate field " ++ key) := rfl

theorem asString_str (s : String) : asString (.str s) = .ok s := rfl

theorem exbind_ok {α β : Type} (a : α) (f : α → Except String β) :
    (Except.ok a : Except String α).bind f = f a := rfl

theorem exbind_assoc {α β γ : Type} (x : Except String α)
    (f : α → Except String β) (g : β → Except String γ) :
    (x.bind f).bind g = x.bind fun a => (f a).bind g := by
  cases x <;> rfl

theorem exbind_error {α β : Type} (e : String) (f : α → Except String β) :
    (Except.error e : Except String α).bind f = .error e := rfl

theorem isOk_ok {α : Type} (a : α) :
    (Except.ok a : Except String α).isOk = true := rfl

theorem isOk_error {α : Type} (e : String) :
    (Except.error e : Except String α).isOk = false := rfl

theorem filter_key_nil (rest : List (String × Json)) (k : String)
    (h : (rest.any fun p => p.1 == k) = false) :
    (rest.filter fun p => p.1 == k) = [] := by
  induction rest with
  | nil => rfl
  | cons q qs ih =>
    simp only [List.any_cons, Bool.or_eq_false_iff] at h
    simp [List.filter_cons, h.1, ih h.2]

theorem getUnique_eq_lookup (fields : List (String × Json)) (key : String)
    (h : keyNodupB fields = true) :
    getUnique fields key = List.lookup key fields := by
  induction fields with
  | nil => rfl
  | cons p rest ih =>
    obtain ⟨k, v⟩ := p
    simp only [keyNodupB, Bool.and_eq_true, Bool.not_eq_true'] at h
    by_cases hk : k = key
    · subst hk
      have hnil : (rest.filter fun p => p.1 == k) = [] :=
        filter_key_nil rest k h.1
      simp [getUnique, List.filter_cons, List.lookup, hnil]
    · have hbeq : (k == key) = false := by simpa using hk
      have hbeq' : (key == k) = false := by
        simpa using fun hkk => hk hkk.symm
      simp only [getUnique, List.filter_cons, hbeq, List.lookup, hbeq',
        Bool.false_eq_true, if_false]
      exact ih h.2

theorem reqField_lookup (fields : List (String × Json)) (key : String)
    (h : keyNodupB fields = true) :
    reqField fields key = fieldOr (List.lookup key fields) key := by
  rw [reqField, getUnique_eq_lookup fields key h, fieldOr.eq_def]

theorem asU32_isOk (j : Json) : (asU32 j).isOk = isU32B (some j) := by
  cases j with
  | num n =>
    cases n with
    | ofNat m =>
      simp only [asU32, isU32B]
      by_cases hm : m < u32size
      · rw [if_pos hm]; simp [hm, isOk_ok]
      · rw [if_neg hm]; simp [hm, isOk_error]
    | negSucc m => rfl
  | null => rfl
  | bool b => rfl
  | str s => rfl
  | arr xs => rfl
  | obj fs => rfl

theorem asString_isOk (j : Json) : (asString j).isOk = isStrB (some j) := by
  cases j <;> rfl

theorem decodeStrings_isOk (xs : List Json) :
    (decodeStrings xs).isOk =
      (xs.all fun j =>
        match j with
        | .str _ => true
        | _ => false) := by
  induction xs with
  | nil => rfl
  | cons j rest ih =>
    cases j with
    | str s =>
      simp only [decodeStrings, asString, exbind_ok, List.all_cons]
      cases hds : decodeStrings rest with
      | ok ss => rw [hds] at ih; simp [exbind_ok, isOk_ok, ← ih]
      | error e => rw [hds] at ih; simp [exbind_error, isOk_error, ← ih]
    | null => simp [decodeStrings, asString, exbind_error, isOk_error]
    | bool b => simp [decodeStrings, asString, exbind_error, isOk_error]
    | num n => simp [decodeStrings, asString, exbind_error, isOk_error]
    | arr ys => simp [decodeStrings, asString, exbind_error, isOk_error]
    | obj fs => simp [decodeStrings, asString, exbind_error, isOk_error]

theorem asStringList_isOk (j : Json) :
    (asStringList j).isOk = isStrListB (some j) := by
  cases j with
  | arr xs => simp [asStringList, isStrListB, decodeStrings_isOk]
  | null => rfl
  | bool b => rfl
  | num n => rfl
  | str s => rfl
  | obj fs => rfl

theorem isOk_bind_const {α β : Type} (x : Except String α)
    (f : α → Except String β) {c : Bool} (hf : ∀ a, (f a).isOk = c) :
    (x.bind f).isOk = (x.isOk && c) := by
  cases x with
  | ok a => simp [exbind_ok, isOk_ok, hf]
  | error e => simp [exbind_error, isOk_error]

theorem isOk_u32_step {β : Type} (o : Option Json) (key : String)
    (rest : Nat → Except String β) {c : Bool}
    (hrest : ∀ a, (rest a).isOk = c) :
    ((fieldOr o key).bind fun vj => (asU32 vj).bind rest).isOk =
      (isU32B o && c) := by
  cases o with
  | none => simp [fieldOr, exbind_error, isOk_error, isU32B]
  | some v =>
    simp only [fieldOr, exbind_ok]
    rw [isOk_bind_const _ _ hrest, asU32_isOk]

theorem isOk_str_step {β : Type} (o : Option Json) (key : String)
    (rest : String → Except String β) {c : Bool}
    (hrest : ∀ a, (rest a).isOk = c) :
    ((fieldOr o key).bind fun vj => (asString vj).bind rest).isOk =
      (isStrB o && c) := by
  cases o with
  | none => simp [fieldOr, exbind_error, isOk_error, isStrB]
  | some v =>
    simp only [fieldOr, exbind_ok]
    rw [isOk_bind_const _ _ hrest, asString_isOk]

theorem isOk_strlist_step {β : Type} (o : Option Json) (key : String)
    (rest : List String → Except String β) {c : Bool}
    (hrest : ∀ a, (rest a).isOk = c) :
    ((fieldOr o key).bind fun vj => (asStringList vj).bind rest).isOk =
      (isStrListB o && c) := by
  cases o with
  | none => simp [fieldOr, exbind_error, isOk_error, isStrListB]
  | some v =>
    simp only [fieldOr, exbind_ok]
    rw [isOk_bind_const _ _ hrest, asStringList_isOk]

theorem decodePayload_isOk_eq (b : Json) (h : bodyKeysNodupB b = true) :
    (decodePayload b).isOk = wellFormedPayloadB b := by
  cases b with
  | obj pf =>
    simp only [bodyKeysNodupB] at h
    simp only [decodePayload, wellFormedPayloadB]
    simp only [reqField_lookup _ _ h]
    cases htag : List.lookup "type" pf with
    | none => simp [fieldOr, exbind_error, isOk_error]
    | some tv =>
      cases tv with
      | str t =>
        simp only [fieldOr_some, exbind_ok, asString_str]
        by_cases h1 : t = "init"
        · rw [if_pos h1, if_pos h1]
          rw [isOk_u32_step _ _ _ (fun mi =>
            isOk_str_step (List.lookup "node_id" pf) "node_id" _ (fun ni =>
              isOk_strlist_step (List.lookup "node_ids" pf) "node_ids" _
                (fun ns => isOk_ok _)))]
          simp [Bool.and_assoc]
        · rw [if_neg h1, if_neg h1]
          by_cases h2 : t = "init_ok"
          · rw [if_pos h2, if_pos h2]
            rw [isOk_u32_step _ _ _ (fun irt => isOk_ok _)]
            simp
          · rw [if_neg h2, if_neg h2]
            by_cases h3 : t = "echo"
            · rw [if_pos h3, if_pos h3]
              rw [isOk_u32_step _ _ _ (fun mi =>
                isOk_str_step (List.lookup "echo" pf) "echo" _ (fun e =>
                  isOk_ok _))]
              simp [Bool.and_assoc]
            · rw [if_neg h3, if_neg h3]
              by_cases h4 : t = "echo_ok"
              · rw [if_pos h4, if_pos h4]
                rw [isOk_u32_step _ _ _ (fun mi =>
                  isOk_u32_step (List.lookup "in_reply_to" pf) "in_reply_to" _
                    (fun irt =>
                      isOk_str_step (List.lookup "echo" pf) "echo" _ (fun e =>
                        isOk_ok _)))]
                simp [Bool.and_assoc]
              · rw [if_neg h4, if_neg h4]
                simp [isOk_error]
      | null => simp [fieldOr, exbind_ok, asString, exbind_error, isOk_error]
      | bool b2 => simp [fieldOr, exbind_ok, asString, exbind_error, isOk_error]
      | num n => simp [fieldOr, exbind_ok, asString, exbind_error, isOk_error]
      | arr ys => simp [fieldOr, exbind_ok, asString, exbind_error, isOk_error]
      | obj fs => simp [fieldOr, exbind_ok, asString, exbind_error, isOk_error]
  | null => rfl
  | bool b2 => rfl
  | num n => rfl
  | str s => rfl
  | arr xs => rfl

/-- C8: on inputs whose objects have distinct keys, decoding one line's
JSON tree succeeds exactly when it is a well-formed envelope in the
spec's sense — the required top-level and payload fields are present,
the `type` tag is one of the four known variants, and every field has
the right shape for its variant; in every other case the result is a
decode error, never a partial envelope. -/
theorem decode_error_characterization (j : Json)
    (h : envKeysNodupB j = true) :
    (decodeMessage j).isOk = wellFormedEnvelopeB j := by
  cases j with
  | obj fields =>
    simp only [envKeysNodupB, Bool.and_eq_true] at h
    obtain ⟨h1, h2⟩ := h
    simp only [decodeMessage, wellFormedEnvelopeB]
    simp only [reqField_lookup _ _ h1]
    cases hbody : List.lookup "body" fields with
    | none =>
      have hnone : ∀ (s d : String),
          ((fieldOr (none : Option Json) "body").bind fun cj =>
            (decodePayload cj).bind fun p =>
            (Except.ok (⟨s, d, p⟩ : Message) : Except String Message)).isOk =
            false := by
        intro s d
        rw [fieldOr_none, exbind_error, isOk_error]
      rw [isOk_str_step _ _ _ (fun s =>
        isOk_str_step (List.lookup "dest" fields) "dest" _ (fun d =>
          hnone s d))]
      simp [Bool.and_assoc]
    | some b =>
      rw [hbody] at h2
      have hb2 : bodyKeysNodupB b = true := by simpa using h2
      have hbodyok : ∀ (s d : String),
          ((fieldOr (some b) "body").bind fun cj =>
            (decodePayload cj).bind fun p =>
            (Except.ok (⟨s, d, p⟩ : Message) : Except String Message)).isOk =
            wellFormedPayloadB b := by
        intro s d
        rw [show fieldOr (some b) "body" = .ok b from rfl, exbind_ok,
          isOk_bind_const _ _ (fun p => isOk_ok _),
          decodePayload_isOk_eq b hb2, Bool.and_true]
      rw [isOk_str_step _ _ _ (fun s =>
        isOk_str_step (List.lookup "dest" fields) "dest" _ (fun d =>
          hbodyok s d))]
      simp [Bool.and_assoc]
  | null => rfl
  | bool b => rfl
  | num n => rfl
  | str s => rfl
  | arr xs => rfl

theorem decode_error_characterization_w :
    envKeysNodupB (encodeMessage cEcho) = true ∧
    (decodeMessage (encodeMessage cEcho)).isOk =
      wellFormedEnvelopeB (encodeMessage cEcho) :=
  ⟨by decide, decode_error_characterization (encodeMessage cEcho) (by decide)⟩

/-- The wire tree of an `init` envelope with an arbitrary integer in
`msg_id`. -/
def initEnvJson (s d : String) (n : Int) (ni : String)
    (ns : List String) : Json :=
  .obj [("src", .str s), ("dest", .str d),
    ("body", .obj [("type", .str "init"), ("msg_id", .num n),
      ("node_id", .str ni), ("node_ids", .arr (ns.map .str))])]

/-- The wire tree of an `init_ok` envelope with an arbitrary integer in
`in_reply_to`. -/
def initOkEnvJson (s d : String) (n : Int) : Json :=
  .obj [("src", .str s), ("dest", .str d),
    ("body", .obj [("type", .str "init_ok"), ("in_reply_to", .num n)])]

/-- The wire tree of an `echo` envelope with an arbitrary integer in
`msg_id`. -/
def echoEnvJson (s d : String) (n : Int) (e : String) : Json :=
  .obj [("src", .str s), ("dest", .str d),
    ("body", .obj [("type", .str "echo"), ("msg_id", .num n),
      ("echo", .str e)])]

/-- The wire tree of an `echo_ok` envelope with arbitrary integers in
`msg_id` and `in_reply_to`. -/
def echoOkEnvJson (s d : String) (mi n : Int) (e : String) : Json :=
  .obj [("src", .str s), ("dest", .str d),
    ("body", .obj [("type", .str "echo_ok"), ("msg_id", .num mi),
      ("in_reply_to", .num n), ("echo", .str e)])]

theorem rf_env_src (a b c : Json) :
    reqField [("src", a), ("dest", b), ("body", c)] "src" = .ok a := rfl

theorem rf_env_dest (a b c : Json) :
    reqField [("src", a), ("dest", b), ("body", c)] "dest" = .ok b := rfl

theorem rf_env_body (a b c : Json) :
    reqField [("src", a), ("dest", b), ("body", c)] "body" = .ok c := rfl

theorem rf_init_type (a b c d : Json) :
    reqField [("type", a), ("msg_id", b), ("node_id", c), ("node_ids", d)]
      "type" = .ok a := rfl

theorem rf_init_msg_id (a b c d : Json) :
    reqField [("type", a), ("msg_id", b), ("node_id", c), ("node_ids", d)]
      "msg_id" = .ok b := rfl

theorem rf_init_node_id (a b c d : Json) :
    reqField [("type", a), ("msg_id", b), ("node_id", c), ("node_ids", d)]
      "node_id" = .ok c := rfl

theorem rf_init_node_ids (a b c d : Json) :
    reqField [("type", a), ("msg_id", b), ("node_id", c), ("node_ids", d)]
      "node_ids" = .ok d := rfl

theorem rf_initOk_type (a b : Json) :
    reqField [("type", a), ("in_reply_to", b)] "type" = .ok a := rfl

theorem rf_initOk_irt (a b : Json) :
    reqField [("type", a), ("in_reply_to", b)] "in_reply_to" = .ok b := rfl

theorem rf_echo_type (a b c : Json) :
    reqField [("type", a), ("msg_id", b), ("echo", c)] "type" = .ok a := rfl

theorem rf_echo_msg_id (a b c : Json) :
    reqField [("type", a), ("msg_id", b), ("echo", c)] "msg_id" = .ok b := rfl

theorem rf_echo_echo (a b c : Json) :
    reqField [("type", a), ("msg_id", b), ("echo", c)] "echo" = .ok c := rfl

theorem rf_echoOk_type (a b c d : Json) :
    reqField [("type", a), ("msg_id", b), ("in_reply_to", c), ("echo", d)]
      "type" = .ok a := rfl

theorem rf_echoOk_msg_id (a b c d : Json) :
    reqField [("type", a), ("msg_id", b), ("in_reply_to", c), ("echo", d)]
      "msg_id" = .ok b := rfl

theorem rf_echoOk_irt (a b c d : Json) :
    reqField [("type", a), ("msg_id", b), ("in_reply_to", c), ("echo", d)]
      "in_reply_to" = .ok c := rfl

theorem rf_echoOk_echo (a b c d : Json) :
    reqField [("type", a), ("msg_id", b), ("in_reply_to", c), ("echo", d)]
      "echo" = .ok d := rfl

theorem decode_init_env (s d : String) (n : Int) (ni : String)
    (ns : List String) :
    decodeMessage (initEnvJson s d n ni ns) =
      (asU32 (.num n)).bind fun mi =>
      (asStringList (.arr (ns.map .str))).bind fun nss =>
        .ok ⟨s, d, .init mi ni nss⟩ := by
  simp only [initEnvJson, decodeMessage, rf_env_src, exbind_ok, asString_str,
    rf_env_dest, rf_env_body, decodePayload, rf_init_type]
  simp [rf_init_msg_id, rf_init_node_id, rf_init_node_ids, asString_str,
    exbind_ok, exbind_assoc]

theorem decode_initOk_env (s d : String) (n : Int) :
    decodeMessage (initOkEnvJson s d n) =
      (asU32 (.num n)).bind fun irt =>
        .ok ⟨s, d, .initOk irt⟩ := by
  simp only [initOkEnvJson, decodeMessage, rf_env_src, exbind_ok,
    asString_str, rf_env_dest, rf_env_body, decodePayload, rf_initOk_type]
  simp [rf_initOk_irt, exbind_ok, exbind_assoc]

theorem decode_echo_env (s d : String) (n : Int) (e : String) :
    decodeMessage (echoEnvJson s d n e) =
      (asU32 (.num n)).bind fun mi =>
        .ok ⟨s, d, .echo mi e⟩ := by
  simp only [echoEnvJson, decodeMessage, rf_env_src, exbind_ok, asString_str,
    rf_env_dest, rf_env_body, decodePayload, rf_echo_type]
  simp [rf_echo_msg_id, exbind_ok, rf_echo_echo, asString_str, exbind_assoc]

theorem decode_echoOk_env (s d : String) (mi n : Int) (e : String) :
    decodeMessage (echoOkEnvJson s d mi n e) =
      (asU32 (.num mi)).bind fun mi2 =>
      (asU32 (.num n)).bind fun irt =>
        .ok ⟨s, d, .echoOk mi2 irt e⟩ := by
  simp only [echoOkEnvJson, decodeMessage, rf_env_src, exbind_ok,
    asString_str, rf_env_dest, rf_env_body, decodePayload, rf_echoOk_type]
  simp [rf_echoOk_msg_id, exbind_ok, rf_echoOk_irt, rf_echoOk_echo,
    asString_str, exbind_assoc]

theorem asU32_big (m : Nat) (hm : u32size ≤ m) :
    asU32 (.num (Int.ofNat m)) =
      .error "invalid value: integer out of range for u32" := by
  simp only [asU32]
  rw [if_neg (Nat.not_lt.mpr hm)]

theorem asU32_negSucc (k : Nat) :
    asU32 (.num (Int.negSucc k)) =
      .error "invalid value: negative integer for u32" := rfl

theorem asU32_ofNat_lt (m : Nat) (hm : m < u32size) :
    asU32 (.num (Int.ofNat m)) = .ok m := by
  simp only [asU32]
  rw [if_pos hm]

theorem isOk_bind_asU32_big {β : Type} (n : Int)
    (f : Nat → Except String β) (hn : (u32size : Int) ≤ n) :
    ((asU32 (.num n)).bind f).isOk = false := by
  cases n with
  | ofNat m =>
    have hm : u32size ≤ m := by
      simp only [Int.ofNat_eq_natCast] at hn
      exact_mod_cast hn
    rw [asU32_big m hm, exbind_error, isOk_error]
  | negSucc k => rw [asU32_negSucc, exbind_error, isOk_error]

theorem replicate_cEcho_all (n : Nat) :
    ((List.replicate n cEcho).all fun m => m.payload.isEchoB) = true := by
  rw [List.all_eq_true]
  intro m hm
  rw [List.eq_of_mem_replicate hm]
  rfl

/-- C10: all `msg_id` and `in_reply_to` fields are 32-bit — decoding
any of the four envelope variants fails whenever its `msg_id` or its
`in_reply_to` is an integer `≥ 2^32` — and the outbound counter is
32-bit arithmetic: the `k`-th echo reply's `msg_id` is `k % 2^32`, so
the ids are distinct only for the first `2^32` replies (reply number
`2^32` carries `msg_id 0` again). -/
theorem u32_bounds :
    (∀ (s d : String) (n : Int) (ni : String) (ns : List String),
      (u32size : Int) ≤ n →
      (decodeMessage (initEnvJson s d n ni ns)).isOk = false) ∧
    (∀ (s d : String) (n : Int), (u32size : Int) ≤ n →
      (decodeMessage (initOkEnvJson s d n)).isOk = false) ∧
    (∀ (s d e : String) (n : Int), (u32size : Int) ≤ n →
      (decodeMessage (echoEnvJson s d n e)).isOk = false) ∧
    (∀ (s d e : String) (mi n : Int),
      (u32size : Int) ≤ mi ∨ (u32size : Int) ≤ n →
      (decodeMessage (echoOkEnvJson s d mi n e)).isOk = false) ∧
    (∀ n : Nat,
      echoMsgIds (runApp (cInit :: List.replicate n cEcho)).outputs =
        (List.range n).map fun k => k % u32size) ∧
    (echoMsgIds
        (runApp (cInit :: List.replicate (u32size + 1) cEcho)).outputs)[u32size]? =
      some 0 := by
  have hmap : ∀ n : Nat,
      echoMsgIds (runApp (cInit :: List.replicate n cEcho)).outputs =
        (List.range n).map fun k => k % u32size := by
    intro n
    simp only [runApp, cInit]
    rw [echoMsgIds_cons_initOk,
      appLoop_echoMsgIds (List.replicate n cEcho) ⟨"n1", 0⟩ (by decide)
        (replicate_cEcho_all n), List.length_replicate]
    simp
  refine ⟨?_, ?_, ?_, ?_, hmap, ?_⟩
  · intro s d n ni ns hn
    rw [decode_init_env]
    exact isOk_bind_asU32_big n _ hn
  · intro s d n hn
    rw [decode_initOk_env]
    exact isOk_bind_asU32_big n _ hn
  · intro s d e n hn
    rw [decode_echo_env]
    exact isOk_bind_asU32_big n _ hn
  · intro s d e mi n hor
    rw [decode_echoOk_env]
    rcases hor with hmi | hn
    · exact isOk_bind_asU32_big mi _ hmi
    · cases mi with
      | negSucc k => rw [asU32_negSucc, exbind_error, isOk_error]
      | ofNat m =>
        by_cases hm : m < u32size
        · rw [asU32_ofNat_lt m hm, exbind_ok]
          exact isOk_bind_asU32_big n _ hn
        · rw [asU32_big m (Nat.le_of_not_lt hm), exbind_error, isOk_error]
  · rw [hmap (u32size + 1), List.getElem?_map,
      List.getElem?_range (Nat.lt_succ_self u32size)]
    simp [Nat.mod_self]

theorem u32_bounds_w :
    ((u32size : Int) ≤ (u32size : Int)) ∧
    (decodeMessage (echoEnvJson "c1" "n1" (u32size : Int) "x")).isOk =
      false :=
  ⟨le_refl _, u32_bounds.2.2.1 "c1" "n1" "x" (u32size : Int) (le_refl _)⟩

/-- Modelled from the spec: the whitespace of the wire text format. -/
def isWsChar (c : Char) : Bool :=
  c == ' ' || c == '\n' || c == '\t' || c == '\r'

/-- Modelled from the spec: skip leading whitespace. -/
def skipWs : List Char → List Char
  | [] => []
  | c :: rest => if isWsChar c then skipWs rest else c :: rest

/-- Modelled from the spec: the value of one hex digit. -/
def hexVal (c : Char) : Option Nat :=
  if '0' ≤ c ∧ c ≤ '9' then some (c.toNat - '0'.toNat)
  else if 'a' ≤ c ∧ c ≤ 'f' then some (c.toNat - 'a'.toNat + 10)
  else if 'A' ≤ c ∧ c ≤ 'F' then some (c.toNat - 'A'.toNat + 10)
  else none

/-- Modelled from the spec: the body of a quoted JSON string after the
opening quote, with the usual escapes; returns the characters and the
input after the closing quote. -/
def parseStringBody : List Char → Option (List Char × List Char)
  | [] => none
  | '"' :: rest => some ([], rest)
  | '\\' :: 'u' :: h1 :: h2 :: h3 :: h4 :: rest =>
    match hexVal h1, hexVal h2, hexVal h3, hexVal h4 with
    | some a, some b, some c, some d =>
      (parseStringBody rest).map fun p =>
        (Char.ofNat (((a * 16 + b) * 16 + c) * 16 + d) :: p.1, p.2)
    | _, _, _, _ => none
  | '\\' :: e :: rest =>
    (if e == '"' then some '"'
     else if e == '\\' then some '\\'
     else if e == '/' then some '/'
     else if e == 'n' then some '\n'
     else if e == 't' then some '\t'
     else if e == 'r' then some '\r'
     else if e == 'b' then some (Char.ofNat 8)
     else if e == 'f' then some (Char.ofNat 12)
     else none).bind fun c =>
      (parseStringBody rest).map fun p => (c :: p.1, p.2)
  | c :: rest => (parseStringBody rest).map fun p => (c :: p.1, p.2)

/-- Modelled from the spec: a run of decimal digits, accumulating its
value. -/
def parseNatDigits : List Char → Nat → (Nat × List Char)
  | [], acc => (acc, [])
  | c :: rest, acc =>
    if c.isDigit then parseNatDigits rest (acc * 10 + (c.toNat - 48))
    else (acc, c :: rest)

mutual

/-- Modelled from the spec: one JSON value of the §6 wire format.  The
text grammar lives in the `serde_json` crate, a dependency not under
`src/`, so it is modelled here from the spec's wire-format section
(integer numbers only — the protocol carries only unsigned integers).
`fuel` bounds recursion depth and is passed larger than the input
length. -/
def parseValue : Nat → List Char → Option (Json × List Char)
  | 0, _ => none
  | fuel + 1, s =>
    match skipWs s with
    | 'n' :: 'u' :: 'l' :: 'l' :: rest => some (.null, rest)
    | 't' :: 'r' :: 'u' :: 'e' :: rest => some (.bool true, rest)
    | 'f' :: 'a' :: 'l' :: 's' :: 'e' :: rest => some (.bool false, rest)
    | '"' :: rest =>
      (parseStringBody rest).map fun p => (.str (String.mk p.1), p.2)
    | '-' :: c :: rest =>
      if c.isDigit then
        match parseNatDigits (c :: rest) 0 with
        | (n, rest2) => some (.num (-(n : Int)), rest2)
      else none
    | '[' :: rest =>
      (match skipWs rest with
       | ']' :: rest2 => some (.arr [], rest2)
       | _ => (parseArrayItems fuel rest).map fun p => (.arr p.1, p.2))
    | '{' :: rest =>
      (match skipWs rest with
       | '}' :: rest2 => some (.obj [], rest2)
       | _ => (parseObjectItems fuel rest).map fun p => (.obj p.1, p.2))
    | c :: rest =>
      if c.isDigit then
        match parseNatDigits (c :: rest) 0 with
        | (n, rest2) => some (.num (n : Int), rest2)
      else none
    | [] => none

/-- Modelled from the spec: the comma-separated items of a non-empty
JSON array, up to and including the closing bracket. -/
def parseArrayItems : Nat → List Char → Option (List Json × List Char)
  | 0, _ => none
  | fuel + 1, s =>
    match parseValue fuel s with
    | none => none
    | some (v, rest) =>
      match skipWs rest with
      | ',' :: rest2 =>
        (parseArrayItems fuel rest2).map fun p => (v :: p.1, p.2)
      | ']' :: rest2 => some ([v], rest2)
      | _ => none

/-- Modelled from the spec: the comma-separated `"key": value` pairs of
a non-empty JSON object, up to and including the closing brace. -/
def parseObjectItems : Nat → List Char → Option (List (String × Json) × List Char)
  | 0, _ => none
  | fuel + 1, s =>
    match skipWs s with
    | '"' :: rest =>
      match parseStringBody rest with
      | none => none
      | some (kcs, rest2) =>
        match skipWs rest2 with
        | ':' :: rest3 =>
          match parseValue fuel rest3 with
          | none => none
          | some (v, rest4) =>
            match skipWs rest4 with
            | ',' :: rest5 =>
              (parseObjectItems fuel rest5).map fun p =>
                ((String.mk kcs, v) :: p.1, p.2)
            | '}' :: rest5 => some ([(String.mk kcs, v)], rest5)
            | _ => none
        | _ => none
    | _ => none

end

/-- Modelled from the spec: `serde_json::from_str` on one line — parse
one JSON value, allow surrounding whitespace, reject trailing data, then
deserialize the tree. -/
def from_str (line : List Char) : Except String Message :=
  match parseValue (line.length + 1) line with
  | some (j, rest) =>
    if (skipWs rest).isEmpty then decodeMessage j
    else .error "trailing characters"
  | none => .error "expected value"

/-- The `read_line` call of `recv_message` (line 53): read up to and
including the next `\n`; when the stream ends first, return whatever was
read (possibly nothing), without an error. -/
def read_line : List Char → (List Char × List Char)
  | [] => ([], [])
  | c :: rest =>
    if c = '\n' then ([c], rest)
    else ((c :: (read_line rest).1, (read_line rest).2))

/-- `recv_message` (lines 49–57): `none` exactly when zero bytes were
read (clean end of input); otherwise the line — with or without a
terminator — is handed to the decoder. -/
def recv_message (input : List Char) :
    Option (Except String Message) × List Char :=
  if (read_line input).1.isEmpty then (none, (read_line input).2)
  else (some (from_str (read_line input).1), (read_line input).2)

theorem read_line_cons_ne_nil (c : Char) (rest : List Char) :
    (read_line (c :: rest)).1 ≠ [] := by
  rw [read_line]
  by_cases hc : c = '\n'
  · rw [if_pos hc]; simp
  · rw [if_neg hc]; simp

theorem read_line_no_newline (input : List Char)
    (h : input.contains '\n' = false) :
    read_line input = (input, []) := by
  induction input with
  | nil => rfl
  | cons c rest ih =>
    simp only [List.contains_cons, Bool.or_eq_false_iff] at h
    have hc : ¬ c = '\n' := by
      intro hcc
      rw [hcc] at h
      simp at h
    rw [read_line, if_neg hc, ih h.2]

/-- C7 (amended): reading one message reports clean end-of-input exactly
when the stream held no bytes at all; when bytes were read and the
stream ended with no line terminator, this is not a framing error — the
partial line is handed to the decoder like a complete line (and so may
be a successfully decoded message). -/
theorem recv_eof_and_partial_line (input : List Char) :
    ((recv_message input).1 = none ↔ input = []) ∧
    (input ≠ [] → input.contains '\n' = false →
      (recv_message input).1 = some (from_str input)) := by
  constructor
  · cases input with
    | nil => simp [recv_message, read_line]
    | cons c rest =>
      have hne := read_line_cons_ne_nil c rest
      simp only [recv_message]
      rw [if_neg (by simpa [List.isEmpty_iff] using hne)]
      simp
  · intro h1 h2
    simp only [recv_message, read_line_no_newline input h2]
    rw [if_neg (by simpa [List.isEmpty_iff] using h1)]

/-- The bytes of a complete echo envelope with no trailing newline. -/
def cexLine : List Char :=
  ("\x7b\"src\":\"c1\",\"dest\":\"n1\",\"body\":\x7b\"type\":\"echo\",\"msg_id\":2,\"echo\":\"hello\"\x7d\x7d").toList

/-- C7 fails as stated: these bytes end with no line terminator, yet
`recv_message` yields a successfully decoded message, not a framing
error. -/
theorem unterminated_line_decodes_cex :
    cexLine ≠ [] ∧ cexLine.contains '\n' = false ∧
    (recv_message cexLine).1 =
      some (.ok ⟨"c1", "n1", .echo 2 "hello"⟩) := by
  refine ⟨by decide, by decide, ?_⟩
  rfl

theorem recv_eof_and_partial_line_w :
    (cexLine ≠ [] ∧ cexLine.contains '\n' = false) ∧
    (recv_message cexLine).1 = some (from_str cexLine) :=
  ⟨⟨by decide, by decide⟩,
    (recv_eof_and_partial_line cexLine).2 (by decide) (by decide)⟩

end EchoNode
